import Mathlib

/-!
Shallow embedding of `traitsui/qt4/tabular_editor.py`: the Qt tabular editor's
selection synchronization, column sizing, preference persistence, key handling
and context-menu dispatch logic.  Toolkit objects (selection model, header,
adapter, menus) are represented by explicit state records and traces of the
imperative calls the editor issues against them.
-/

namespace TabularEd

/-- The subset of the editor factory's configuration read by the embedded
methods: selection mode, editability, allowed operations, automatic column
resizing and the scroll position hint string. -/
structure Factory where
  multi_select : Bool
  editable : Bool
  operations : List String
  auto_resize : Bool
  scroll_to_position_hint : String
deriving Repr, DecidableEq

/-- Editor state over items of type `α`: the `_no_update` flag, the edited list
(`self.value`), the single-selection traits (`selected_row`, `selected`,
`selected_column`) and the multi-selection row list. -/
structure EditorState (α : Type) where
  factory : Factory
  no_update : Bool
  value : List α
  selected_row : Int
  selected : Option α
  selected_column : Int
  multi_selected_rows : List Int

/-- Python `list.index(x)`: the first index of `x`, or a `ValueError` when
`x` does not occur. -/
def listIndex [DecidableEq α] (l : List α) (x : α) : Except String Nat :=
  match l with
  | [] => .error "ValueError"
  | y :: ys =>
    if y = x then .ok 0
    else
      match listIndex ys x with
      | .error e => .error e
      | .ok i => .ok (i + 1)

/-- The list comprehension `[values.index(i) for i in xs]`: all indices, or the
first `ValueError` raised by a lookup. -/
def lookupRows [DecidableEq α] (values : List α) (xs : List α) :
    Except String (List Nat) :=
  match xs with
  | [] => .ok []
  | x :: rest =>
    match listIndex values x with
    | .error e => .error e
    | .ok i =>
      match lookupRows values rest with
      | .error e => .error e
      | .ok is => .ok (i :: is)

/-- The Qt selection flags the editor passes to `QItemSelectionModel.select`. -/
inductive SelectionFlag where
  | clearAndSelectRows
  | selectRows
  | deselectRows
deriving Repr, DecidableEq

/-- Qt scroll hints used by `QAbstractItemView.scrollTo`. -/
inductive ScrollHint where
  | positionAtCenter
  | positionAtTop
  | positionAtBottom
  | ensureVisible
deriving Repr, DecidableEq

/-- The imperative calls the editor issues against the table widget and its
selection model. -/
inductive WidgetCall where
  | clearSelection
  | select (row : Int) (column : Int) (flag : SelectionFlag)
  | multiSelect (rows : List Int) (flag : SelectionFlag)
  | scrollTo (row : Int) (column : Int) (hint : ScrollHint)
deriving Repr, DecidableEq

/-- Dictionary `SCROLL_TO_POSITION_HINT_MAP`: the dictionary from hint strings to Qt
scroll hints. -/
def SCROLL_TO_POSITION_HINT_MAP (s : String) : Option ScrollHint :=
  if s = "center" then some .positionAtCenter
  else if s = "top" then some .positionAtTop
  else if s = "bottom" then some .positionAtBottom
  else if s = "visible" then some .ensureVisible
  else none

/-- Handler `_scroll_to_row_changed`: scroll the view to the given row, at column
`max(selected_column, 0)`, with the factory's position hint (defaulting to
`EnsureVisible`). -/
def _scroll_to_row_changed (s : EditorState α) (row : Int) : WidgetCall :=
  .scrollTo row (max s.selected_column 0)
    ((SCROLL_TO_POSITION_HINT_MAP s.factory.scroll_to_position_hint).getD
      .ensureVisible)

/-- Handler `_selected_row_changed`: outside a `_no_update` region, clear the widget
selection for a negative row, otherwise select the whole row (at column
`max(selected_column, 0)`, `ClearAndSelect | Rows`) and fire `scroll_to_row`,
which scrolls the view to that row. -/
def _selected_row_changed (s : EditorState α) (selected_row : Int) :
    List WidgetCall :=
  if s.no_update then []
  else if selected_row < 0 then [.clearSelection]
  else
    [.select selected_row (max s.selected_column 0) .clearAndSelectRows,
     _scroll_to_row_changed s selected_row]

/-- Modelled from the spec: `traitsui.api.raise_to_debug` (not under `src/`)
performs the toolkit-standard exception suppression around selection index
lookups, so the handler makes no widget call and lets no exception propagate. -/
def raise_to_debug : List WidgetCall := []

/-- Handler `_selected_changed`: translate a new `selected` value to a row selection.
A failed `self.value.index(new)` lookup is caught and handed to
`raise_to_debug`. -/
def _selected_changed [DecidableEq α] (s : EditorState α) (new : Option α) :
    Except String (List WidgetCall) :=
  if s.no_update then .ok []
  else
    match new with
    | none => .ok (_selected_row_changed s (-1))
    | some v =>
      match listIndex s.value v with
      | .error _ => .ok raise_to_debug
      | .ok i => .ok (_selected_row_changed s (i : Int))

/-- Handler `_multi_selected_rows_changed`: outside a `_no_update` region, clear the
widget selection and select all the given rows (`Select | Rows`). -/
def _multi_selected_rows_changed (s : EditorState α) (rows : List Int) :
    List WidgetCall :=
  if s.no_update then []
  else [.clearSelection, .multiSelect rows .selectRows]

/-- Handler `_multi_selected_changed`: translate the new `multi_selected` list to row
selections; a failed lookup is silently ignored (`except: pass`). -/
def _multi_selected_changed [DecidableEq α] (s : EditorState α)
    (new : List α) : Except String (List WidgetCall) :=
  if s.no_update then .ok []
  else
    match lookupRows s.value new with
    | .error _ => .ok []
    | .ok rows => .ok (_multi_selected_rows_changed s (rows.map Int.ofNat))

/-- Handler `_multi_selected_rows_items_changed`: outside a `_no_update` region,
deselect the removed rows then select the added rows. -/
def _multi_selected_rows_items_changed (s : EditorState α)
    (added removed : List Int) : List WidgetCall :=
  if s.no_update then []
  else
    removed.map (fun r => .select r 0 .deselectRows)
      ++ added.map (fun r => .select r 0 .selectRows)

/-- Handler `_multi_selected_items_changed`: translate added/removed items to row
updates; a failed lookup is silently ignored (`except: pass`). -/
def _multi_selected_items_changed [DecidableEq α] (s : EditorState α)
    (added removed : List α) : Except String (List WidgetCall) :=
  match lookupRows s.value added with
  | .error _ => .ok []
  | .ok addedRows =>
    match lookupRows s.value removed with
    | .error _ => .ok []
    | .ok removedRows =>
      .ok (_multi_selected_rows_items_changed s
        (addedRows.map Int.ofNat) (removedRows.map Int.ofNat))

/-- Handler `_on_row_selection`: set `_no_update`, read the widget's selected rows;
if non-empty set `selected_row` to the first row and `selected` to the
adapter's item for it, otherwise `-1` and `None`; finally reset `_no_update`
to `False`. -/
def _on_row_selection (s : EditorState α) (selectedRows : List Int)
    (getItem : Int → α) : EditorState α :=
  let s0 := { s with no_update := true }
  let s1 :=
    match selectedRows with
    | [] => { s0 with selected_row := -1, selected := none }
    | r :: _ => { s0 with selected_row := r, selected := some (getItem r) }
  { s1 with no_update := false }

/-- The keys distinguished by `_TableView.keyPressEvent`. -/
inductive Key where
  | key_Enter
  | key_Return
  | key_Backspace
  | key_Delete
  | key_Insert
  | other
deriving Repr, DecidableEq

/-- The imperative calls `keyPressEvent` issues against the model and view. -/
inductive ModelCall where
  | editCell (row : Int)
  | removeRow (row : Int)
  | insertRow (row : Int)
  | setCurrentIndex (row : Int)
  | superKeyPress
deriving Repr, DecidableEq

/-- Method `_TableView.keyPressEvent`: Enter/Return edits the single selected row,
Delete/Backspace removes the selected rows (in reverse sorted order when
multi-selecting), Insert inserts before the first selected row (or at the end
when nothing is selected); anything else goes to the base class.  `editing`
is whether the view is in `EditingState`; `adapter_len` is
`adapter.len(object, name)`. -/
def keyPressEvent (s : EditorState α) (key : Key) (editing : Bool)
    (adapter_len : Int) : List ModelCall :=
  let f := s.factory
  if (key = .key_Enter ∨ key = .key_Return) ∧ editing = false
      ∧ f.editable = true ∧ "edit" ∈ f.operations then
    let row :=
      if f.multi_select then
        if s.multi_selected_rows.length = 1 then s.multi_selected_rows.headD 0
        else -1
      else s.selected_row
    if row ≠ -1 then [.editCell row] else []
  else if (key = .key_Backspace ∨ key = .key_Delete)
      ∧ f.editable = true ∧ "delete" ∈ f.operations then
    if f.multi_select then
      ((s.multi_selected_rows.insertionSort (· ≤ ·)).reverse).map
        (fun r => .removeRow r)
    else if s.selected_row ≠ -1 then [.removeRow s.selected_row]
    else []
  else if key = .key_Insert ∧ f.editable = true ∧ "insert" ∈ f.operations then
    let row0 :=
      if f.multi_select then
        match s.multi_selected_rows.insertionSort (· ≤ ·) with
        | [] => -1
        | r :: _ => r
      else s.selected_row
    let row := if row0 = -1 then adapter_len else row0
    [.insertRow row, .setCurrentIndex row]
  else [.superKeyPress]

/-- The toolkit context read by `sizeHintForColumn` and
`resizeColumnsToContents`: factory flag, column count, adapter widths, header
size hints, the base-class hint, the viewport width, the recorded user widths,
and `traitsui.helper.compute_column_widths` (kept abstract: the claims only
constrain how it is invoked). -/
structure ColumnEnv where
  auto_resize : Bool
  nColumns : Nat
  get_width : Nat → Int
  sectionSizeHint : Nat → Int
  superSizeHintForColumn : Nat → Int
  viewport_width : Int
  user_widths : Option (List (Option Int))
  compute_column_widths :
    Int → List Int → List Int → Option (List (Option Int)) → List Int

/-- Method `_TableView.sizeHintForColumn`: under auto-resize defer to the base class;
otherwise return the adapter width when it exceeds 1, else the header's
section size hint. -/
def sizeHintForColumn (env : ColumnEnv) (column : Nat) : Int :=
  if env.auto_resize then env.superSizeHintForColumn column
  else
    let width := env.get_width column
    if width > 1 then width else env.sectionSizeHint column

/-- The header resize calls issued by `resizeColumnsToContents`. -/
inductive ResizeAction where
  | superResizeColumnsToContents
  | resizeSection (column : Nat) (width : Int)
deriving Repr, DecidableEq

/-- Method `_TableView.resizeColumnsToContents`: under auto-resize defer to the base
class; otherwise resize every section to the widths computed by
`compute_column_widths` from the viewport width, the adapter's requested
widths, the per-column size hints and the recorded user widths. -/
def resizeColumnsToContents (env : ColumnEnv) : List ResizeAction :=
  if env.auto_resize then [.superResizeColumnsToContents]
  else
    let requested := (List.range env.nColumns).map env.get_width
    let min_widths := (List.range env.nColumns).map (sizeHintForColumn env)
    let widths :=
      env.compute_column_widths env.viewport_width requested min_widths
        env.user_widths
    widths.enum.map (fun p => .resizeSection p.1 p.2)

/-- The steps `_on_column_context_menu` performs, in order; `μ` is the type of
adapter-supplied menus. -/
inductive CtxAction (μ : Type) where
  | setMenuContext (column : Int)
  | createMenu (m : μ)
  | execMenu
  | clearMenuContext
  | fireColumnRightClicked (row : Int) (column : Int)
deriving Repr, DecidableEq

/-- Handler `_on_column_context_menu`: look up the column at the event position; if
the adapter defines a column menu, set `_menu_context`, create and execute the
menu, then reset `_menu_context` to `None`; otherwise fire
`column_right_clicked` (via `_on_column_right_click`, with row 0) for that
column. -/
def _on_column_context_menu (columnAt : Int → Int)
    (get_column_menu : Int → Int → Option μ) (posX : Int) :
    List (CtxAction μ) :=
  let column := columnAt posX
  match get_column_menu (-1) column with
  | some m => [.setMenuContext column, .createMenu m, .execMenu,
      .clearMenuContext]
  | none => [.fireColumnRightClicked 0 column]

/-- The editor attributes `callx` and `setx` manipulate: the two guard flags
and a store of plain attributes written through `setattr`. -/
structure NotifyState where
  no_update : Bool
  no_notify : Bool
  attrs : List (String × Int)
deriving Repr, DecidableEq

/-- Method `TabularEditor.callx`: record `_no_update`, set it, call `func` (which may
mutate state and may raise, reported as `some` error), and in a `finally`
restore `_no_update` to the recorded value. -/
def callx (s : NotifyState)
    (func : NotifyState → Option String × NotifyState) :
    Option String × NotifyState :=
  let old := s.no_update
  let r := func { s with no_update := true }
  (r.1, { r.2 with no_update := old })

/-- Python `setattr(self, name, value)` over the modelled attribute store: a
trait validator may reject the value, raising a `TraitError`. -/
def setattr (valid : String → Int → Bool) (s : NotifyState) (name : String)
    (v : Int) : Option String × NotifyState :=
  if valid name v then (none, { s with attrs := (name, v) :: s.attrs })
  else (some "TraitError", s)

/-- The `for name, value in keywords.items(): setattr(...)` loop of `setx`,
stopping at the first raising assignment. -/
def setxLoop (valid : String → Int → Bool) (s : NotifyState)
    (kvs : List (String × Int)) : Option String × NotifyState :=
  match kvs with
  | [] => (none, s)
  | (k, v) :: rest =>
    match setattr valid s k v with
    | (some e, s1) => (some e, s1)
    | (none, s1) => setxLoop valid s1 rest

/-- Method `TabularEditor.setx`: record `_no_notify`, set it, perform the
assignments, and in a `finally` restore `_no_notify` to the recorded value. -/
def setx (valid : String → Int → Bool) (s : NotifyState)
    (kvs : List (String × Int)) : Option String × NotifyState :=
  let old := s.no_notify
  let r := setxLoop valid { s with no_notify := true } kvs
  (r.1, { r.2 with no_notify := old })

/-- The state read and written by `save_prefs` / `restore_prefs`: the number
of adapter columns and the widget's column widths. -/
structure PrefState where
  nColumns : Nat
  colWidth : Nat → Int

/-- The preference dictionary: its optional `"cached_widths"` entry. -/
structure Prefs where
  cached_widths : Option (List Int)

/-- Method `TabularEditor.save_prefs`: one cached width per adapter column. -/
def save_prefs (s : PrefState) : Prefs :=
  { cached_widths := some ((List.range s.nColumns).map s.colWidth) }

/-- Method `TabularEditor.restore_prefs`: apply the cached widths only when present
and as numerous as the current adapter columns. -/
def restore_prefs (s : PrefState) (p : Prefs) : PrefState :=
  match p.cached_widths with
  | none => s
  | some cws =>
    if s.nColumns = cws.length then
      { s with colWidth := fun c =>
          if c < s.nColumns then cws.getD c 0 else s.colWidth c }
    else s

/-- The `_TableView` resizing state: the `_is_resizing` guard and the
`_user_widths` record. -/
structure ViewState where
  is_resizing : Bool
  user_widths : Option (List (Option Int))
deriving Repr, DecidableEq

/-- Method `_TableView.columnResized`: when not inside a programmatic resize, record
the new width in `_user_widths` (allocating it at the column count if absent)
and report whether `resizeColumnsToContents` is re-invoked (factory present
and not auto-resizing). -/
def columnResized (auto_resize factory_present : Bool) (nCols : Nat)
    (s : ViewState) (index : Nat) (new : Int) : ViewState × Bool :=
  if s.is_resizing then (s, false)
  else
    let uw := s.user_widths.getD (List.replicate nCols none)
    ({ s with user_widths := some (uw.set index (some new)) },
     factory_present && !auto_resize)

/-- The `hheader.resizeSection` loop body of `resizeColumnsToContents`: each
section resize triggers the `sectionResized` signal, hence `columnResized`. -/
def resizeSectionsLoop (auto_resize factory_present : Bool) (nCols : Nat)
    (s : ViewState) (ws : List (Nat × Int)) : ViewState :=
  match ws with
  | [] => s
  | (c, w) :: rest =>
    resizeSectionsLoop auto_resize factory_present nCols
      (columnResized auto_resize factory_present nCols s c w).1 rest

/-- The state effect of `_TableView.resizeColumnsToContents` (non-auto-resize
branch): run the section resizes inside the `_resizing` context manager. -/
def resizeColumnsToContentsState (auto_resize factory_present : Bool)
    (nCols : Nat) (s : ViewState) (widths : List Int) : ViewState :=
  let s1 := { s with is_resizing := true }
  let s2 := resizeSectionsLoop auto_resize factory_present nCols s1
    widths.enum
  { s2 with is_resizing := false }

/-- The `_resizing` context manager: set `_is_resizing`, run the body (which
may raise, reported as `some` error), and in a `finally` reset the flag to
`False`. -/
def withResizing (s : ViewState)
    (body : ViewState → Option String × ViewState) :
    Option String × ViewState :=
  let r := body { s with is_resizing := true }
  (r.1, { r.2 with is_resizing := false })

/-! Helper lemmas about the index lookups. -/

theorem listIndex_error_of_not_mem [DecidableEq α] {l : List α} {x : α}
    (h : x ∉ l) : listIndex l x = .error "ValueError" := by
  induction l with
  | nil => rfl
  | cons y ys ih =>
    have hyx : ¬(y = x) := fun he => h (he ▸ List.mem_cons_self y ys)
    have hmem : x ∉ ys := fun hm => h (List.mem_cons_of_mem y hm)
    simp only [listIndex, if_neg hyx, ih hmem]

theorem lookupRows_ok_mem [DecidableEq α] {values xs : List α}
    {rows : List Nat} (h : lookupRows values xs = .ok rows) :
    ∀ x ∈ xs, x ∈ values := by
  induction xs generalizing rows with
  | nil => intro x hx; exact absurd hx (List.not_mem_nil x)
  | cons y ys ih =>
    intro x hx
    rcases List.mem_cons.mp hx with hxy | hxs
    · subst hxy
      by_contra hnot
      rw [lookupRows, listIndex_error_of_not_mem hnot] at h
      exact Except.noConfusion h
    · revert h
      rw [lookupRows]
      cases hli : listIndex values y with
      | error e => intro h; exact absurd h (by simp)
      | ok i =>
        cases hlr : lookupRows values ys with
        | error e => intro h; exact absurd h (by simp)
        | ok is => intro _; exact ih hlr x hxs

theorem lookupRows_error_of_exists [DecidableEq α] {values xs : List α}
    (h : ∃ x ∈ xs, x ∉ values) :
    ∃ e, lookupRows values xs = .error e := by
  cases hl : lookupRows values xs with
  | error e => exact ⟨e, rfl⟩
  | ok rows =>
    obtain ⟨x, hx, hnot⟩ := h
    exact absurd (lookupRows_ok_mem hl x hx) hnot

/-- A sample factory configuration used to instantiate the theorems below. -/
def sampleFactory : Factory :=
  { multi_select := false
    editable := true
    operations := ["edit", "delete", "insert"]
    auto_resize := false
    scroll_to_position_hint := "visible" }

/-- A sample single-select editor state used to instantiate the theorems
below. -/
def sampleState : EditorState Nat :=
  { factory := sampleFactory
    no_update := false
    value := [0, 1]
    selected_row := 1
    selected := none
    selected_column := -1
    multi_selected_rows := [2, 0, 1] }

/-- C1: for every value assigned to the selection traits that does not occur
in the edited list, the `ValueError` of the index lookup is suppressed:
`_selected_changed` catches it and performs no widget selection update, and
`_multi_selected_changed` / `_multi_selected_items_changed` silently ignore
it, leaving the widget selection unchanged. -/
theorem C1_selection_lookup_errors_suppressed [DecidableEq α]
    (s : EditorState α) (v : α) (items added removed : List α)
    (hv : v ∉ s.value)
    (hitems : ∃ i ∈ items, i ∉ s.value)
    (har : ∃ i ∈ added ++ removed, i ∉ s.value) :
    _selected_changed s (some v) = .ok [] ∧
    _multi_selected_changed s items = .ok [] ∧
    _multi_selected_items_changed s added removed = .ok [] := by
  refine ⟨?_, ?_, ?_⟩
  · rw [_selected_changed]
    cases hnu : s.no_update with
    | true => simp
    | false => simp [listIndex_error_of_not_mem hv, raise_to_debug]
  · rw [_multi_selected_changed]
    cases hnu : s.no_update with
    | true => simp
    | false =>
      obtain ⟨e, he⟩ := lookupRows_error_of_exists hitems
      simp [he]
  · rw [_multi_selected_items_changed]
    cases hadd : lookupRows s.value added with
    | error e => rfl
    | ok addedRows =>
      cases hrem : lookupRows s.value removed with
      | error e => rfl
      | ok removedRows =>
        obtain ⟨i, hi, hnot⟩ := har
        rcases List.mem_append.mp hi with hia | hir
        · exact absurd (lookupRows_ok_mem hadd i hia) hnot
        · exact absurd (lookupRows_ok_mem hrem i hir) hnot

theorem C1_witness :
    ((5 : Nat) ∉ sampleState.value) ∧
    _selected_changed sampleState (some 5) = .ok [] ∧
    _multi_selected_changed sampleState [5] = .ok [] ∧
    _multi_selected_items_changed sampleState [] [5] = .ok [] :=
  ⟨by decide,
   C1_selection_lookup_errors_suppressed sampleState 5 [5] [] [5]
     (by decide) (by decide) (by decide)⟩

/-- C2: in single-select mode, the widget's selection-changed callback sets
`selected_row` to the first selected row's index and `selected` to the
adapter's item for it when the selected-rows list is non-empty, and to `-1`
and `None` when it is empty; in both cases `_no_update` ends up `False`. -/
theorem C2_on_row_selection (s : EditorState α) (rows : List Int)
    (getItem : Int → α) :
    (_on_row_selection s rows getItem).no_update = false ∧
    (rows = [] →
      (_on_row_selection s rows getItem).selected_row = -1 ∧
      (_on_row_selection s rows getItem).selected = none) ∧
    (∀ r rest, rows = r :: rest →
      (_on_row_selection s rows getItem).selected_row = r ∧
      (_on_row_selection s rows getItem).selected = some (getItem r)) := by
  cases rows with
  | nil => exact ⟨rfl, fun _ => ⟨rfl, rfl⟩, fun r rest h => List.noConfusion h⟩
  | cons r rest =>
    refine ⟨rfl, fun h => List.noConfusion h, fun r' rest' h => ?_⟩
    obtain ⟨h1, h2⟩ := List.cons.injEq .. ▸ h
    · subst h1; exact ⟨rfl, rfl⟩

theorem C2_witness :
    (_on_row_selection sampleState [3, 7] (fun r => r.toNat * 10)).no_update
        = false ∧
    (_on_row_selection sampleState [3, 7]
        (fun r => r.toNat * 10)).selected_row = 3 ∧
    (_on_row_selection sampleState [3, 7] (fun r => r.toNat * 10)).selected
        = some 30 :=
  ⟨(C2_on_row_selection sampleState [3, 7] (fun r => r.toNat * 10)).1,
   ((C2_on_row_selection sampleState [3, 7]
      (fun r => r.toNat * 10)).2.2 3 [7] rfl).1,
   ((C2_on_row_selection sampleState [3, 7]
      (fun r => r.toNat * 10)).2.2 3 [7] rfl).2⟩

/-- C3: outside a `_no_update` region, assigning a negative `selected_row`
clears the widget selection, and assigning `r ≥ 0` selects row `r` at column
`max(selected_column, 0)` (`ClearAndSelect | Rows`) and then fires
`scroll_to_row` with `r`, scrolling the view to that row. -/
theorem C3_selected_row_changed (s : EditorState α) (r : Int)
    (h : s.no_update = false) :
    (r < 0 → _selected_row_changed s r = [.clearSelection]) ∧
    (0 ≤ r → _selected_row_changed s r =
      [.select r (max s.selected_column 0) .clearAndSelectRows,
       .scrollTo r (max s.selected_column 0)
         ((SCROLL_TO_POSITION_HINT_MAP
            s.factory.scroll_to_position_hint).getD .ensureVisible)]) := by
  constructor
  · intro hr
    rw [_selected_row_changed, if_neg (by rw [h]; exact Bool.false_ne_true),
      if_pos hr]
  · intro hr
    rw [_selected_row_changed, if_neg (by rw [h]; exact Bool.false_ne_true),
      if_neg (not_lt.mpr hr)]
    rfl

theorem C3_witness :
    sampleState.no_update = false ∧
    _selected_row_changed sampleState (-1) = [.clearSelection] ∧
    _selected_row_changed sampleState 2 =
      [.select 2 0 .clearAndSelectRows, .scrollTo 2 0 .ensureVisible] :=
  ⟨rfl,
   (C3_selected_row_changed sampleState (-1) rfl).1 (by decide),
   (C3_selected_row_changed sampleState 2 rfl).2 (by decide)⟩

/-- A sample multi-select editor state used to instantiate the theorems
below. -/
def sampleMultiState : EditorState Nat :=
  { sampleState with
      factory := { sampleFactory with multi_select := true } }

/-- C4: a Delete/Backspace key press with the editor editable and `delete`
among the factory operations removes, in multi-select mode, every row of
`multi_selected_rows` in strictly descending order, and in single-select mode
the row `selected_row` exactly when it is not `-1`; without the precondition
no row is removed. -/
theorem C4_delete_key (s : EditorState α) (key : Key) (editing : Bool)
    (adapter_len : Int)
    (hkey : key = .key_Backspace ∨ key = .key_Delete) :
    (s.factory.editable = true → "delete" ∈ s.factory.operations →
      (s.factory.multi_select = true → s.multi_selected_rows.Nodup →
        keyPressEvent s key editing adapter_len
          = ((s.multi_selected_rows.insertionSort (· ≤ ·)).reverse).map
              (fun r => ModelCall.removeRow r)
        ∧ ((s.multi_selected_rows.insertionSort (· ≤ ·)).reverse).Perm
            s.multi_selected_rows
        ∧ ((s.multi_selected_rows.insertionSort (· ≤ ·)).reverse).Sorted
            (· > ·)) ∧
      (s.factory.multi_select = false →
        (s.selected_row ≠ -1 →
          keyPressEvent s key editing adapter_len
            = [ModelCall.removeRow s.selected_row]) ∧
        (s.selected_row = -1 →
          keyPressEvent s key editing adapter_len = []))) ∧
    (¬(s.factory.editable = true ∧ "delete" ∈ s.factory.operations) →
      ∀ r, ModelCall.removeRow r ∉ keyPressEvent s key editing adapter_len)
    := by
  have hne : ¬(key = Key.key_Enter ∨ key = Key.key_Return) := by
    rcases hkey with h | h <;> subst h <;> rintro (h | h) <;> exact
      Key.noConfusion h
  have hni : ¬(key = Key.key_Insert) := by
    rcases hkey with h | h <;> subst h <;> exact fun h => Key.noConfusion h
  constructor
  · intro hed hop
    constructor
    · intro hm hnd
      have hkp : keyPressEvent s key editing adapter_len
          = ((s.multi_selected_rows.insertionSort (· ≤ ·)).reverse).map
              (fun r => ModelCall.removeRow r) := by
        rw [keyPressEvent, if_neg (fun hc => hne hc.1),
          if_pos ⟨hkey, hed, hop⟩, if_pos hm]
      refine ⟨hkp, (List.reverse_perm _).trans
        (List.perm_insertionSort _ _), ?_⟩
      have hsorted : (s.multi_selected_rows.insertionSort (· ≤ ·)).Sorted
          (· ≤ ·) := List.sorted_insertionSort _ _
      have hnodup : (s.multi_selected_rows.insertionSort (· ≤ ·)).Nodup :=
        (List.perm_insertionSort (· ≤ ·) s.multi_selected_rows).symm.nodup hnd
      have hlt : (s.multi_selected_rows.insertionSort (· ≤ ·)).Sorted
          (· < ·) :=
        (hsorted.and hnodup).imp (fun h => lt_of_le_of_ne h.1 h.2)
      exact List.pairwise_reverse.mpr hlt
    · intro hm
      constructor
      · intro hrow
        rw [keyPressEvent, if_neg (fun hc => hne hc.1),
          if_pos ⟨hkey, hed, hop⟩, if_neg (by rw [hm]; exact
            Bool.false_ne_true), if_pos hrow]
      · intro hrow
        rw [keyPressEvent, if_neg (fun hc => hne hc.1),
          if_pos ⟨hkey, hed, hop⟩, if_neg (by rw [hm]; exact
            Bool.false_ne_true), if_neg (by rw [hrow]; exact fun h => h rfl)]
  · intro hpre r
    rw [keyPressEvent, if_neg (fun hc => hne hc.1),
      if_neg (fun hc => hpre hc.2), if_neg (fun hc => hni hc.1)]
    simp

theorem C4_witness :
    sampleState.factory.editable = true ∧
    ("delete" ∈ sampleState.factory.operations) ∧
    sampleState.factory.multi_select = false ∧
    keyPressEvent sampleState .key_Delete false 3 = [ModelCall.removeRow 1] ∧
    sampleMultiState.factory.multi_select = true ∧
    keyPressEvent sampleMultiState .key_Backspace false 3 =
      [ModelCall.removeRow 2, ModelCall.removeRow 1, ModelCall.removeRow 0]
    := by
  refine ⟨rfl, by decide, rfl,
    (((C4_delete_key sampleState .key_Delete false 3
      (Or.inr rfl)).1 rfl (by decide)).2 rfl).1 (by decide), rfl, ?_⟩
  have h := ((C4_delete_key sampleMultiState .key_Backspace false 3
    (Or.inl rfl)).1 rfl (by decide)).1 rfl (by decide)
  rw [h.1]
  rfl

/-- A sample sizing environment used to instantiate the theorems below. -/
def sampleEnv : ColumnEnv :=
  { auto_resize := false
    nColumns := 2
    get_width := fun c => if c = 0 then 50 else 1
    sectionSizeHint := fun _ => 30
    superSizeHintForColumn := fun _ => 99
    viewport_width := 100
    user_widths := none
    compute_column_widths := fun _ req mins _ => mins.zipWith max req }

/-- C5: when `auto_resize` is false, `sizeHintForColumn` returns the adapter
width when it exceeds 1 and the header's section size hint otherwise, and
`resizeColumnsToContents` resizes every column to the width computed by
`compute_column_widths` from the viewport width, the requested widths, those
minimum widths and the recorded user widths. -/
theorem C5_column_widths (env : ColumnEnv) (h : env.auto_resize = false) :
    (∀ c, (1 < env.get_width c →
            sizeHintForColumn env c = env.get_width c) ∧
          (env.get_width c ≤ 1 →
            sizeHintForColumn env c = env.sectionSizeHint c)) ∧
    resizeColumnsToContents env =
      (env.compute_column_widths env.viewport_width
          ((List.range env.nColumns).map env.get_width)
          ((List.range env.nColumns).map (sizeHintForColumn env))
          env.user_widths).enum.map
        (fun p => ResizeAction.resizeSection p.1 p.2) ∧
    (∀ c, c < (env.compute_column_widths env.viewport_width
          ((List.range env.nColumns).map env.get_width)
          ((List.range env.nColumns).map (sizeHintForColumn env))
          env.user_widths).length →
      (resizeColumnsToContents env)[c]? =
        some (ResizeAction.resizeSection c
          ((env.compute_column_widths env.viewport_width
              ((List.range env.nColumns).map env.get_width)
              ((List.range env.nColumns).map (sizeHintForColumn env))
              env.user_widths).getD c 0))) := by
  have hmain : resizeColumnsToContents env =
      (env.compute_column_widths env.viewport_width
          ((List.range env.nColumns).map env.get_width)
          ((List.range env.nColumns).map (sizeHintForColumn env))
          env.user_widths).enum.map
        (fun p => ResizeAction.resizeSection p.1 p.2) := by
    rw [resizeColumnsToContents,
      if_neg (by rw [h]; exact Bool.false_ne_true)]
  refine ⟨?_, hmain, ?_⟩
  · intro c
    constructor
    · intro hw
      rw [sizeHintForColumn, if_neg (by rw [h]; exact Bool.false_ne_true)]
      simp only [if_pos hw]
    · intro hw
      rw [sizeHintForColumn, if_neg (by rw [h]; exact Bool.false_ne_true)]
      simp only [if_neg (not_lt.mpr hw)]
  · intro c hc
    rw [hmain, List.getElem?_map, List.getElem?_enum,
      List.getElem?_eq_getElem hc, List.getD_eq_getElem?_getD,
      List.getElem?_eq_getElem hc]
    rfl

theorem C5_witness :
    sampleEnv.auto_resize = false ∧
    sizeHintForColumn sampleEnv 0 = 50 ∧
    sizeHintForColumn sampleEnv 1 = 30 ∧
    resizeColumnsToContents sampleEnv =
      [.resizeSection 0 50, .resizeSection 1 30] :=
  ⟨rfl,
   ((C5_column_widths sampleEnv rfl).1 0).1 (by decide),
   ((C5_column_widths sampleEnv rfl).1 1).2 (by decide),
   by rw [(C5_column_widths sampleEnv rfl).2.1]; rfl⟩

/-- C6: a column context-menu event looks up the column at the event
position; when the adapter defines a column menu the editor sets
`_menu_context`, creates and executes the menu, and resets `_menu_context` to
`None` afterwards; otherwise it fires `column_right_clicked` with that column
and row 0. -/
theorem C6_column_context_menu (columnAt : Int → Int)
    (get_column_menu : Int → Int → Option μ) (posX : Int) :
    (∀ m, get_column_menu (-1) (columnAt posX) = some m →
      _on_column_context_menu columnAt get_column_menu posX =
        [.setMenuContext (columnAt posX), .createMenu m, .execMenu,
         .clearMenuContext]) ∧
    (get_column_menu (-1) (columnAt posX) = none →
      _on_column_context_menu columnAt get_column_menu posX =
        [.fireColumnRightClicked 0 (columnAt posX)]) := by
  constructor
  · intro m hm
    rw [_on_column_context_menu]
    simp only [hm]
  · intro hm
    rw [_on_column_context_menu]
    simp only [hm]

theorem C6_witness :
    _on_column_context_menu (fun x => x + 1) (fun _ _ => some 7) 1 =
      [.setMenuContext 2, .createMenu 7, .execMenu, .clearMenuContext] ∧
    _on_column_context_menu (fun x => x + 1) (fun _ _ => (none : Option Nat))
        1 = [.fireColumnRightClicked 0 2] :=
  ⟨(C6_column_context_menu (fun x => x + 1) (fun _ _ => some 7) 1).1 7 rfl,
   (C6_column_context_menu (fun x => x + 1)
     (fun _ _ => (none : Option Nat)) 1).2 rfl⟩

/-- C8: `callx` restores `_no_update`, and `setx` restores `_no_notify`, to
their prior values on every exit path — the raised error (if any) of the
wrapped call or of a failing assignment is propagated unchanged while the
flag is still restored. -/
theorem C8_callx_setx_restore_flags (s : NotifyState)
    (func : NotifyState → Option String × NotifyState)
    (valid : String → Int → Bool) (kvs : List (String × Int)) :
    (callx s func).2.no_update = s.no_update ∧
    (callx s func).1 = (func { s with no_update := true }).1 ∧
    (setx valid s kvs).2.no_notify = s.no_notify ∧
    (setx valid s kvs).1 =
      (setxLoop valid { s with no_notify := true } kvs).1 :=
  ⟨rfl, rfl, rfl, rfl⟩

/-- C9: `save_prefs` caches exactly one width per adapter column;
`restore_prefs` applies the cached widths exactly when they are present and
match the column count, and leaves the state unchanged otherwise; hence
`restore_prefs` after `save_prefs` restores every saved column width when the
column count is unchanged. -/
theorem C9_prefs_roundtrip (s t : PrefState) (p : Prefs) :
    ((save_prefs s).cached_widths.getD []).length = s.nColumns ∧
    (∀ cws, p.cached_widths = some cws → s.nColumns = cws.length →
      ∀ c, c < s.nColumns →
        (restore_prefs s p).colWidth c = cws.getD c 0) ∧
    (p.cached_widths = none → restore_prefs s p = s) ∧
    (∀ cws, p.cached_widths = some cws → s.nColumns ≠ cws.length →
      restore_prefs s p = s) ∧
    (t.nColumns = s.nColumns → ∀ c,
      (restore_prefs t (save_prefs s)).colWidth c =
        if c < s.nColumns then s.colWidth c else t.colWidth c) := by
  refine ⟨?_, ?_, ?_, ?_, ?_⟩
  · simp [save_prefs]
  · intro cws hcws hlen c hc
    rw [restore_prefs]
    simp only [hcws, if_pos hlen, if_pos hc]
  · intro hnone
    rw [restore_prefs]
    simp only [hnone]
  · intro cws hcws hlen
    rw [restore_prefs]
    simp only [hcws, if_neg hlen]
  · intro hlen c
    rw [restore_prefs]
    simp only [save_prefs]
    rw [if_pos (by simp [hlen])]
    dsimp only
    rw [hlen]
    by_cases hc : c < s.nColumns
    · rw [if_pos hc, if_pos hc, List.getD_eq_getElem?_getD,
        List.getElem?_map, List.getElem?_range hc]
      rfl
    · rw [if_neg hc, if_neg hc]

/-- A sample preference-save source state. -/
def samplePrefSource : PrefState :=
  { nColumns := 2, colWidth := fun c => (c : Int) + 10 }

/-- A sample preference-restore target state with the same column count. -/
def samplePrefTarget : PrefState :=
  { nColumns := 2, colWidth := fun _ => 0 }

theorem C9_witness :
    (((save_prefs samplePrefSource).cached_widths.getD []).length = 2) ∧
    (restore_prefs samplePrefTarget
      (save_prefs samplePrefSource)).colWidth 0 = 10 ∧
    (restore_prefs samplePrefTarget
      (save_prefs samplePrefSource)).colWidth 1 = 11 := by
  refine ⟨(C9_prefs_roundtrip samplePrefSource samplePrefTarget
      { cached_widths := none }).1, ?_, ?_⟩
  · have h := (C9_prefs_roundtrip samplePrefSource samplePrefTarget
        { cached_widths := none }).2.2.2.2 rfl 0
    simpa [samplePrefSource, samplePrefTarget] using h
  · have h := (C9_prefs_roundtrip samplePrefSource samplePrefTarget
        { cached_widths := none }).2.2.2.2 rfl 1
    simpa [samplePrefSource, samplePrefTarget] using h

/-- Inside a programmatic resize (`_is_resizing = true`), the signal-driven
`columnResized` calls leave the view state unchanged. -/
theorem resizeSectionsLoop_of_resizing (auto_resize factory_present : Bool)
    (nCols : Nat) (s : ViewState) (hs : s.is_resizing = true)
    (ws : List (Nat × Int)) :
    resizeSectionsLoop auto_resize factory_present nCols s ws = s := by
  induction ws generalizing s with
  | nil => rfl
  | cons cw rest ih =>
    obtain ⟨c, w⟩ := cw
    rw [resizeSectionsLoop, columnResized, if_pos hs]
    exact ih s hs

/-- C10: `columnResized` records nothing and triggers no re-entrant resize
while `_is_resizing` is set; the programmatic `resizeColumnsToContents`
therefore leaves `_user_widths` unchanged and ends with `_is_resizing` back
to `False`; and the `_resizing` context manager resets the flag on every exit
path, a raising body included. -/
theorem C10_user_width_guard (auto_resize factory_present : Bool)
    (nCols : Nat) (s : ViewState) (index : Nat) (new : Int)
    (widths : List Int) (body : ViewState → Option String × ViewState) :
    (s.is_resizing = true →
      columnResized auto_resize factory_present nCols s index new
        = (s, false)) ∧
    (resizeColumnsToContentsState auto_resize factory_present nCols s
        widths).user_widths = s.user_widths ∧
    (resizeColumnsToContentsState auto_resize factory_present nCols s
        widths).is_resizing = false ∧
    (withResizing s body).2.is_resizing = false := by
  refine ⟨?_, ?_, ?_, rfl⟩
  · intro hs
    rw [columnResized, if_pos hs]
  · rw [resizeColumnsToContentsState,
      resizeSectionsLoop_of_resizing _ _ _ _ rfl]
  · rw [resizeColumnsToContentsState,
      resizeSectionsLoop_of_resizing _ _ _ _ rfl]

theorem C10_witness :
    columnResized false true 2 { is_resizing := true, user_widths := none }
        0 5 = ({ is_resizing := true, user_widths := none }, false) ∧
    (resizeColumnsToContentsState false true 2
      { is_resizing := false, user_widths := some [some 1, none] }
      [10, 20]).user_widths = some [some 1, none] ∧
    (resizeColumnsToContentsState false true 2
      { is_resizing := false, user_widths := some [some 1, none] }
      [10, 20]).is_resizing = false :=
  ⟨(C10_user_width_guard false true 2
      { is_resizing := true, user_widths := none } 0 5 [10, 20]
      (fun t => (none, t))).1 rfl,
   (C10_user_width_guard false true 2
      { is_resizing := false, user_widths := some [some 1, none] } 0 5
      [10, 20] (fun t => (none, t))).2.1,
   (C10_user_width_guard false true 2
      { is_resizing := false, user_widths := some [some 1, none] } 0 5
      [10, 20] (fun t => (none, t))).2.2.1⟩

end TabularEd
